import Mathlib

set_option maxHeartbeats 1000000

/-! Verification of the last30days-skill result-normalization pipeline.

The embedding models the three source files
`src/scripts/lib/tavily_search.py`, `src/scripts/lib/perplexity_search.py`
and `src/scripts/lib/tavily_reddit.py`.  Parsed JSON values are an inductive
type `JVal`; Python numbers (int and float collapsed) are exact rationals;
Python strings are lists of characters.  Functions that can raise a Python
exception on some input return `Except Unit`, with `.error ()` standing for
an uncaught exception; functions the source wraps in try/except are total.
The HTTP transport and the `dates`/`http` helper modules are outside the
repository snapshot: the per-item Reddit date fetch is abstracted as an
oracle `fetch : JVal → Option PyStr` covering success, failure, timeout and
unparsable-shape outcomes alike. -/

/-- Python strings, modelled as lists of characters. -/
abbrev PyStr := List Char

/-- Parsed JSON values.  Python int and float are both `num` (an exact
rational); `Float` rounding of the one `round(..., 2)` call site is discussed
at `round2`. -/
inductive JVal where
  | null : JVal
  | bool : Bool → JVal
  | num : ℚ → JVal
  | str : PyStr → JVal
  | arr : List JVal → JVal
  | obj : List (PyStr × JVal) → JVal

/-- A Python dict of JSON data: an association list keyed by strings.  The
first occurrence of a key is the binding (parsed JSON has unique keys). -/
abbrev PyDict := List (PyStr × JVal)

/-- Python truthiness of a JSON value. -/
def truthy : JVal → Bool
  | .null => false
  | .bool b => b
  | .num q => decide (q ≠ 0)
  | .str s => !s.isEmpty
  | .arr l => !l.isEmpty
  | .obj l => !l.isEmpty

/-- Python `dict.get(k)` as an option. -/
def dget? (d : PyDict) (k : PyStr) : Option JVal :=
  (d.find? (fun p => p.1 == k)).map (fun p => p.2)

/-- Python `dict.get(k, default)`. -/
def dget (d : PyDict) (k : PyStr) (default : JVal) : JVal :=
  (dget? d k).getD default

/-- Python `d[k] = v`: replace the binding of `k`, or append one. -/
def dset : PyDict → PyStr → JVal → PyDict
  | [], k, v => [(k, v)]
  | (k0, v0) :: rest, k, v =>
      if k0 == k then (k0, v) :: rest else (k0, v0) :: dset rest k v

/-- Python `len(v)`: `none` models the TypeError raised on unsized values. -/
def pyLen? : JVal → Option ℕ
  | .str s => some s.length
  | .arr l => some l.length
  | .obj l => some l.length
  | _ => none

/-- Whitespace characters of Python's `str.strip()` and of `\s` (ASCII). -/
def isPySpace (c : Char) : Bool :=
  c == ' ' || c == '\t' || c == '\n' || c == '\r' ||
    c == Char.ofNat 11 || c == Char.ofNat 12

/-- Python `str.strip()` without arguments. -/
def pyStrip (s : PyStr) : PyStr :=
  ((s.dropWhile isPySpace).reverse.dropWhile isPySpace).reverse

/-- Single-quote character, used by the `repr` rendering. -/
def quoteChar : Char := Char.ofNat 39

/-- Opening and closing curly braces, used by the `repr` rendering. -/
def obraceChar : Char := Char.ofNat 123

/-- Closing curly brace. -/
def cbraceChar : Char := Char.ofNat 125

mutual
/-- Python `repr` of a JSON value, as used inside container renderings by
`str()`.  The rendering of numbers is simplified (Python's float repr is not
reproduced digit for digit); every claim below depends only on emptiness and
on the first character of the result, which are faithful. -/
def pyReprOf : JVal → PyStr
  | .null => "None".data
  | .bool true => "True".data
  | .bool false => "False".data
  | .num q =>
      (Int.repr q.num).data ++
        (if q.den == 1 then [] else '.' :: (Nat.repr q.den).data)
  | .str s => quoteChar :: (s ++ [quoteChar])
  | .arr l => '[' :: (pyReprArr l ++ [']'])
  | .obj l => obraceChar :: (pyReprObj l ++ [cbraceChar])

/-- Comma-separated renderings of a list's elements. -/
def pyReprArr : List JVal → PyStr
  | [] => []
  | [v] => pyReprOf v
  | v :: rest => pyReprOf v ++ ',' :: ' ' :: pyReprArr rest

/-- Comma-separated renderings of a dict's entries. -/
def pyReprObj : List (PyStr × JVal) → PyStr
  | [] => []
  | [(k, v)] => (quoteChar :: (k ++ [quoteChar])) ++ ':' :: ' ' :: pyReprOf v
  | (k, v) :: rest =>
      (quoteChar :: (k ++ [quoteChar])) ++ ':' :: ' ' :: pyReprOf v ++
        ',' :: ' ' :: pyReprObj rest
end

/-- Python `str(v)`: the string itself for strings, `repr`-style text
otherwise. -/
def pyStrOf : JVal → PyStr
  | .str s => s
  | v => pyReprOf v

/-- Value of a run of decimal digits. -/
def digitsVal (ds : PyStr) : ℕ :=
  ds.foldl (fun acc c => 10 * acc + (c.toNat - 48)) 0

/-- Mantissa part of Python `float(str)`: digits with an optional fraction,
at least one digit overall.  Returns the value and the remaining text. -/
def parseMantissa (t : PyStr) : Option (ℚ × PyStr) :=
  let ip := t.takeWhile Char.isDigit
  let rest := t.drop ip.length
  match rest with
  | '.' :: fr =>
      let fd := fr.takeWhile Char.isDigit
      if ip.isEmpty && fd.isEmpty then none
      else some ((digitsVal ip : ℚ) + (digitsVal fd : ℚ) / (10 : ℚ) ^ fd.length,
        fr.drop fd.length)
  | _ => if ip.isEmpty then none else some ((digitsVal ip : ℚ), rest)

/-- Exponent suffix `e±ddd` of Python `float(str)`, applied to `m`. -/
def parseExponent (m : ℚ) (t : PyStr) : Option ℚ :=
  match t with
  | [] => some m
  | e :: rest =>
      if e == 'e' || e == 'E' then
        let (sgn, ds) : ℚ × PyStr :=
          match rest with
          | '+' :: ds => (1, ds)
          | '-' :: ds => (-1, ds)
          | ds => (1, ds)
        if ds.isEmpty || !ds.all Char.isDigit then none
        else if sgn = 1 then some (m * (10 : ℚ) ^ digitsVal ds)
        else some (m / (10 : ℚ) ^ digitsVal ds)
      else none

/-- Python `float(str)` on plain decimal literals: optional surrounding
whitespace, optional sign, digits with optional fraction and exponent.
The Python extras (underscore separators, `inf`, `nan`) are not modelled;
no claim below depends on them. -/
def parseFloat? (s0 : PyStr) : Option ℚ :=
  let s := pyStrip s0
  match s with
  | '+' :: t => (parseMantissa t).bind (fun p => parseExponent p.1 p.2)
  | '-' :: t => ((parseMantissa t).bind (fun p => parseExponent p.1 p.2)).map Neg.neg
  | t => (parseMantissa t).bind fun p => parseExponent p.1 p.2

/-- Python `float(v)` coercion: `none` models the TypeError/ValueError the
callers catch. -/
def pyFloat? : JVal → Option ℚ
  | .num q => some q
  | .bool b => some (if b then 1 else 0)
  | .str s => parseFloat? s
  | _ => none

/-- Bool-valued prefix test on character lists. -/
def leadsB : PyStr → PyStr → Bool
  | [], _ => true
  | _ :: _, [] => false
  | a :: as, b :: bs => a == b && leadsB as bs

/-- Bool-valued substring test: Python `needle in hay` for strings. -/
def substrB (needle : PyStr) : PyStr → Bool
  | [] => needle.isEmpty
  | c :: rest => leadsB needle (c :: rest) || substrB needle rest

/-- Python `==` against a fixed string: only an equal string compares true. -/
def isStrEq (needle : PyStr) : JVal → Bool
  | .str s => s == needle
  | _ => false

/-- Python `needle in hay` on a JSON value: substring for strings, element
equality for lists, key membership for dicts; `.error ()` is the TypeError
raised for the other types. -/
def pyContains (needle : PyStr) : JVal → Except Unit Bool
  | .str s => .ok (substrB needle s)
  | .arr l => .ok (l.any (isStrEq needle))
  | .obj l => .ok (l.any (fun p => p.1 == needle))
  | _ => .error ()

/-- Lowercasing of a Python string (ASCII, as the denylist needs). -/
def lowerStr (s : PyStr) : PyStr := s.map Char.toLower

/-- Scheme characters of `urllib.parse` after the leading letter. -/
def isSchemeChar (c : Char) : Bool :=
  c.isAlpha || c.isDigit || c == '+' || c == '-' || c == '.'

/-- Text after the `scheme:` prefix, when a valid scheme is present; the whole
string otherwise (models the scheme split of `urllib.parse.urlsplit`). -/
def schemeSplit (s : PyStr) : PyStr :=
  let pre := s.takeWhile (fun c => c != ':')
  if pre.length < s.length && !pre.isEmpty &&
      (match pre with
       | c :: cs => c.isAlpha && cs.all isSchemeChar
       | [] => false) then
    s.drop (pre.length + 1)
  else s

/-- Characters that end the netloc of a URL. -/
def endsNetloc (c : Char) : Bool := c == '/' || c == '?' || c == '#'

/-- The `netloc` of `urllib.parse.urlparse`: present only after a leading
`//`; `none` models the ValueError raised for unmatched square brackets.
The control-character stripping newer CPython performs before parsing is not
modelled; no denylisted host contains such characters. -/
def netlocOf? (s : PyStr) : Option PyStr :=
  match schemeSplit s with
  | '/' :: '/' :: r =>
      let n := r.takeWhile (fun c => !endsNetloc c)
      if (n.contains '[' && !n.contains ']') ||
          (n.contains ']' && !n.contains '[') then none
      else some n
  | _ => some []

/-- The `path` of `urllib.parse.urlparse`: what follows the netloc, up to the
first `?` or `#`; `none` models the same bracket ValueError.  The params
split at `;` of `urlparse` is not modelled (it only touches the last path
segment and no claim depends on it). -/
def pathOf? (s : PyStr) : Option PyStr :=
  match schemeSplit s with
  | '/' :: '/' :: r =>
      let n := r.takeWhile (fun c => !endsNetloc c)
      if (n.contains '[' && !n.contains ']') ||
          (n.contains ']' && !n.contains '[') then none
      else some ((r.drop n.length).takeWhile (fun c => c != '?' && c != '#'))
  | r => some (r.takeWhile (fun c => c != '?' && c != '#'))

/-- Each character mapped to `d` when a digit, itself otherwise. -/
def digitClass (c : Char) : Char := if c.isDigit then 'd' else c

/-- The strict date pattern of `tavily_reddit.py` line 215,
`^\d` `{4}` `-\d` `{2}` `-\d` `{2}` `$` under `re.match`: on the strings that
reach it (length at most 10 after the slice) it holds exactly of ten-character
digit-digit-digit-digit dash digit-digit dash digit-digit strings. -/
def isoShape (s : PyStr) : Bool :=
  s.map digitClass == "dddd-dd-dd".data

/-- Python `round(q, 2)` modelled over exact rationals as round-half-up to
hundredths.  Python rounds the nearest binary double instead; at every value
a claim below evaluates, the double sits strictly off the decimal tie (for
example `0.55 + 0.35*0.5` is strictly above `0.725`), where the two roundings
agree. -/
def round2 (q : ℚ) : ℚ := ((⌊q * 100 + 1 / 2⌋ : ℤ) : ℚ) / 100

/-- Clamp of the structured-search score, `min(1.0, max(0.0, x))`. -/
def clamp01 (q : ℚ) : ℚ := min 1 (max 0 q)

/-- The citation marker text for index `n`: an opening bracket, the decimal
digits of `n`, a closing bracket. -/
def markerOf (n : ℕ) : PyStr := '[' :: ((Nat.repr n).data ++ [']'])

/-- Whether the marker `m` occurs at the head of `l` and is not immediately
followed by a further digit (the lookahead of the counting pattern). -/
def markerAt (m : PyStr) (l : PyStr) : Bool :=
  leadsB m l &&
    (match l.drop m.length with
     | d :: _ => !d.isDigit
     | [] => true)

namespace perplexity_search

/-- Domains excluded by `perplexity_search.py` and `tavily_search.py`
(`EXCLUDED_DOMAINS`, identical constants in both files). -/
def EXCLUDED_DOMAINS : List PyStr :=
  ["reddit.com".data, "www.reddit.com".data, "old.reddit.com".data,
   "twitter.com".data, "www.twitter.com".data, "x.com".data, "www.x.com".data]

/-- Count of occurrences of the marker for `n` in `content`, modelling one
entry of `_count_citation_references` (the `re.findall` count of the pattern
bracket `n` bracket with a not-a-digit lookahead).  Occurrences of this
pattern cannot overlap, because the marker contains an opening bracket only
at its head, so counting every matching position equals the non-overlapping
`findall` count. -/
def countMarker (n : ℕ) : PyStr → ℕ
  | [] => 0
  | c :: rest =>
      (if markerAt (markerOf n) (c :: rest) then 1 else 0) + countMarker n rest

/-- Characters the title capture group accepts: anything but an opening
bracket or a newline. -/
def titleRunChar (c : Char) : Bool := c != '[' && c != '\n'

/-- Characters the star before the title capture accepts: a closing
parenthesis or whitespace. -/
def titleStarChar (c : Char) : Bool := c == ')' || isPySpace c

/-- Attempt of the title capture after consuming `k` star characters: a run
of five to eighty capture characters. -/
def titleAtK (rest : PyStr) (k : ℕ) : Option PyStr :=
  let run := (rest.drop k).takeWhile titleRunChar
  if 5 ≤ run.length then some (run.take 80) else none

/-- Backtracking of the greedy star before the title capture: consume as many
star characters as possible, giving characters back until the capture can
take at least five. -/
def titleTryStar (rest : PyStr) : ℕ → Option PyStr
  | 0 => titleAtK rest 0
  | k + 1 =>
      match titleAtK rest (k + 1) with
      | some t => some t
      | none => titleTryStar rest k

/-- Leftmost search of the title pattern: at each position where the marker
matches, try the star-and-capture continuation; on failure resume one
character further, as `re.search` does. -/
def titleSearch (m : PyStr) : PyStr → Option PyStr
  | [] => none
  | c :: rest =>
      if leadsB m (c :: rest) then
        let after := (c :: rest).drop m.length
        match titleTryStar after ((after.takeWhile titleStarChar).length) with
        | some t => some t
        | none => titleSearch m rest
      else titleSearch m rest

/-- Characters removed by the markdown-emphasis substitution. -/
def isEmphChar (c : Char) : Bool := c == '*' || c == '_' || c == Char.ofNat 96

/-- Python `str.rstrip` of periods. -/
def rstripDots (s : PyStr) : PyStr :=
  (s.reverse.dropWhile (fun c => c == '.')).reverse

/-- Source `_extract_title_for_citation` of `perplexity_search.py`: search
for the marker followed by an optional run of parens and whitespace and a
five-to-eighty character capture, strip it, drop trailing periods, remove
markdown emphasis characters, and discard results of three characters or
fewer. -/
def extract_title_for_citation (content : PyStr) (index : ℕ) : Option PyStr :=
  if content.isEmpty then none
  else
    match titleSearch (markerOf index) content with
    | none => none
    | some g =>
        let t := (rstripDots (pyStrip g)).filter (fun c => !isEmphChar c)
        if 3 < t.length then some t else none

/-- Split of `content` at the first occurrence of the marker `m`: the text
before it and the text after it. -/
def splitAtMarker (m : PyStr) : PyStr → Option (PyStr × PyStr)
  | [] => none
  | c :: rest =>
      if leadsB m (c :: rest) then some ([], (c :: rest).drop m.length)
      else (splitAtMarker m rest).map (fun p => (c :: p.1, p.2))

/-- Removal of every bracketed run of digits, modelling the substitution of
the pattern bracket digits bracket by nothing (leftmost, non-overlapping). -/
def removeBracketNums : PyStr → PyStr
  | [] => []
  | c :: rest =>
      if c == '[' then
        let ds := rest.takeWhile Char.isDigit
        match h : rest.drop ds.length with
        | ']' :: tail =>
            if ds.isEmpty then c :: removeBracketNums rest
            else removeBracketNums tail
        | _ => c :: removeBracketNums rest
      else c :: removeBracketNums rest
termination_by l => l.length
decreasing_by
  all_goals simp_wf
  all_goals try omega
  all_goals
    (have hlen : (rest.drop ds.length).length = rest.length - ds.length := by
       simp
     rw [h] at hlen
     simp at hlen
     omega)

/-- Source `_extract_snippet_for_citation` of `perplexity_search.py`: the
leftmost span of non-period characters around the first marker occurrence,
closed by the first period after it (`re.search` of non-periods, marker,
non-periods, period); bracketed numbers and markdown emphasis are removed
and results of ten characters or fewer discarded.  The leftmost regex match
is the span from just after the last period before the first marker
occurrence up to and including the first period after it, when that period
exists. -/
def extract_snippet_for_citation (content : PyStr) (index : ℕ) : Option PyStr :=
  if content.isEmpty then none
  else
    match splitAtMarker (markerOf index) content with
    | none => none
    | some (before, after) =>
        if after.contains '.' then
          let sentStart := (before.reverse.takeWhile (fun c => c != '.')).reverse
          let sentEnd := after.takeWhile (fun c => c != '.')
          let span := sentStart ++ markerOf index ++ sentEnd ++ ['.']
          let t := (pyStrip (removeBracketNums (pyStrip span))).filter
            (fun c => !isEmphChar c)
          if 10 < t.length then some t else none
        else none

/-- Python subscript `v[0]`: `none` models the IndexError, KeyError or
TypeError that `_get_content` catches. -/
def pyIndex0 : JVal → Option JVal
  | .arr (x :: _) => some x
  | .str (c :: _) => some (.str [c])
  | _ => none

/-- Python subscript `v[k]` with a string key: `none` models the KeyError or
TypeError that `_get_content` catches. -/
def pySubscript (v : JVal) (k : PyStr) : Option JVal :=
  match v with
  | .obj l => (l.find? (fun p => p.1 == k)).map (fun p => p.2)
  | _ => none

/-- Source `_get_content`: the value at `choices[0].message.content`, with
any KeyError, IndexError or TypeError on the way yielding the empty string.
The value itself is returned as is, string or not. -/
def get_content (response : PyDict) : JVal :=
  ((((dget? response ("choices".data)).bind pyIndex0).bind
      (fun v => pySubscript v ("message".data))).bind
    (fun v => pySubscript v ("content".data))).getD (.str [])

end perplexity_search

/-- Domain try-block shared verbatim by `tavily_search._normalize_results`
lines 92-99 and `perplexity_search._normalize_results` lines 107-114: parse
the netloc, lowercase it, skip the item (`none` here) when it is in
`EXCLUDED_DOMAINS`, else strip a leading `www.` for storage; any exception
from `urlparse` is caught, leaving an empty domain and skipping both the
exclusion check and the strip. -/
def domainStep (url : JVal) : Option PyStr :=
  match url with
  | .str s =>
      match netlocOf? s with
      | some n =>
          let d := lowerStr n
          if perplexity_search.EXCLUDED_DOMAINS.contains d then none
          else some (if leadsB ("www.".data) d then d.drop 4 else d)
      | none => some []
  | _ => some []

/-- Relevance coercion shared by `tavily_search._normalize_results` lines
107-112 and `tavily_reddit.parse_reddit_response` lines 218-223:
`result.get("score", 0.6)` coerced to float and clamped to `[0, 1]`, with
`0.6` on TypeError or ValueError. -/
def scoreRelevance (result : PyDict) : ℚ :=
  match pyFloat? (dget result ("score".data) (.num (3 / 5))) with
  | some q => clamp01 q
  | none => 3 / 5

/-- Date extraction shared by `tavily_search._normalize_results` lines
114-117 and `tavily_reddit.parse_reddit_response` lines 211-214:
`result.get("published_date")`; when truthy and `len(date) >= 10`, the first
ten elements.  `len` of an unsized truthy value raises TypeError (`.error`),
as does slicing a dict. -/
def dateSlice (d : JVal) : Except Unit JVal :=
  if truthy d then
    match pyLen? d with
    | none => .error ()
    | some L =>
        if 10 ≤ L then
          match d with
          | .str s => .ok (.str (s.take 10))
          | .arr l => .ok (.arr (l.take 10))
          | _ => .error ()
        else .ok d
  else .ok d

/-- Date extraction applied to the dict's `published_date`. -/
def dateStep (result : PyDict) : Except Unit JVal :=
  dateSlice (dget result ("published_date".data) .null)

/-- Loop shell shared by the two Tavily-response normalizers: enumerate the
results, skip items the body maps to `none`, stop with the exception when the
body raises. -/
def exceptLoop (f : ℕ → JVal → Except Unit (Option PyDict)) :
    ℕ → List JVal → Except Unit (List PyDict)
  | _, [] => .ok []
  | i, r :: rest =>
      match f i r with
      | .error e => .error e
      | .ok none => exceptLoop f (i + 1) rest
      | .ok (some it) => (exceptLoop f (i + 1) rest).map (fun l => it :: l)

namespace tavily_search

/-- Item record built by `_normalize_results` lines 120-130 of
`tavily_search.py`. -/
def mkItem (i : ℕ) (title : PyStr) (url : JVal) (domain : PyStr)
    (snippet : PyStr) (date : JVal) (conf : PyStr) (relevance : ℚ) : PyDict :=
  [("id".data, .str ('W' :: (Nat.repr (i + 1)).data)),
   ("title".data, .str (title.take 200)),
   ("url".data, url),
   ("source_domain".data, .str domain),
   ("snippet".data, .str (snippet.take 500)),
   ("date".data, date),
   ("date_confidence".data, .str conf),
   ("relevance".data, .num relevance),
   ("why_relevant".data, .str [])]

/-- Body of the `_normalize_results` loop of `tavily_search.py` (lines
83-130) for the result at index `i`: skip non-dicts, falsy urls, excluded
domains and items with neither title nor snippet; raise where the source
does (see `dateStep`). -/
def normalizeItem (i : ℕ) (result : JVal) : Except Unit (Option PyDict) :=
  match result with
  | .obj r =>
      let url := dget r ("url".data) (.str [])
      if !truthy url then .ok none
      else
        match domainStep url with
        | none => .ok none
        | some domain =>
            let title := pyStrip (pyStrOf (dget r ("title".data) (.str [])))
            let snippet := pyStrip (pyStrOf (dget r ("content".data) (.str [])))
            if title.isEmpty && snippet.isEmpty then .ok none
            else
              match dateStep r with
              | .error e => .error e
              | .ok date =>
                  let conf := if truthy date then "med".data else "low".data
                  .ok (some (mkItem i title url domain snippet date conf
                    (scoreRelevance r)))
  | _ => .ok none

/-- Source `_normalize_results` of `tavily_search.py`: an empty list when
`results` is missing or not a list, else the loop over the results. -/
def normalize_results (response : PyDict) : Except Unit (List PyDict) :=
  match dget response ("results".data) (.arr []) with
  | .arr l => exceptLoop normalizeItem 0 l
  | _ => .ok []

end tavily_search

namespace perplexity_search

/-- Precomputation of `_count_citation_references` at line 100 of
`perplexity_search.py`: falsy content leaves the counts dict empty (`none`
here, every lookup falling back to the default 1); truthy non-string content
raises TypeError inside `re.findall`; truthy string content is kept for
counting. -/
def contentStep (response : PyDict) : Except Unit (Option PyStr) :=
  let c := get_content response
  if !truthy c then .ok none
  else
    match c with
    | .str s => .ok (some s)
    | _ => .error ()

/-- Reference count used at line 124, `citation_counts.get(i + 1, 1)`: the
marker count when the content was a truthy string (the counts dict then has
a binding for every index in range), the default 1 otherwise. -/
def refCountOf (cs : Option PyStr) (n : ℕ) : ℕ :=
  match cs with
  | none => 1
  | some s => countMarker n s

/-- Relevance formula of lines 123-126 of `perplexity_search.py` for the
citation at zero-based position `i` of `count`, referenced `rc` times:
`round(0.55 + 0.35 * max(0, 1 - i/max(count,1)) + min(0.1, (rc-1)*0.05), 2)`. -/
def relevanceFormula (count i rc : ℕ) : ℚ :=
  round2 (11 / 20 + 7 / 20 * max 0 (1 - (i : ℚ) / ((max count 1 : ℕ) : ℚ)) +
    min (1 / 10) (((rc : ℚ) - 1) * (1 / 20)))

/-- Item record built by `_normalize_results` lines 128-138 of
`perplexity_search.py`. -/
def mkItem (i : ℕ) (title : PyStr) (u : PyStr) (domain : PyStr)
    (snippet : Option PyStr) (relevance : ℚ) : PyDict :=
  [("id".data, .str ('W' :: (Nat.repr (i + 1)).data)),
   ("title".data, .str (title.take 200)),
   ("url".data, .str u),
   ("source_domain".data, .str domain),
   ("snippet".data, .str ((snippet.map (fun s => s.take 500)).getD [])),
   ("date".data, .null),
   ("date_confidence".data, .str ("low".data)),
   ("relevance".data, .num relevance),
   ("why_relevant".data, .str [])]

/-- Body of the `_normalize_results` loop of `perplexity_search.py` (lines
102-138) for the citation at position `i`: skip values that are not
non-empty strings and excluded domains; title falls back to the stored
domain, snippet to the empty string. -/
def normalizeItem (cs : Option PyStr) (count i : ℕ) (u : JVal) :
    Option PyDict :=
  match u with
  | .str s =>
      if s.isEmpty then none
      else
        match domainStep (.str s) with
        | none => none
        | some domain =>
            let title :=
              ((cs.bind (fun c => extract_title_for_citation c (i + 1))).getD
                domain)
            let snippet := cs.bind (fun c => extract_snippet_for_citation c (i + 1))
            some (mkItem i title s domain snippet
              (relevanceFormula count i (refCountOf cs (i + 1))))
  | _ => none

/-- Loop of `_normalize_results` of `perplexity_search.py`: enumerate the
citations, skipping those the body rejects. -/
def normalizeLoop (cs : Option PyStr) (count : ℕ) :
    ℕ → List JVal → List PyDict
  | _, [] => []
  | i, u :: rest =>
      match normalizeItem cs count i u with
      | none => normalizeLoop cs count (i + 1) rest
      | some it => it :: normalizeLoop cs count (i + 1) rest

/-- Source `_normalize_results` of `perplexity_search.py`: zero items when
`citations` is missing, not a list or empty; otherwise the reference counts
are computed (raising on truthy non-string content) and the citations
normalized. -/
def normalize_results (response : PyDict) : Except Unit (List PyDict) :=
  match dget response ("citations".data) (.arr []) with
  | .arr l =>
      if l.isEmpty then .ok []
      else
        match contentStep response with
        | .error e => .error e
        | .ok cs => .ok (normalizeLoop cs l.length 0 l)
  | _ => .ok []

end perplexity_search

namespace tavily_reddit

/-- Subreddit capture of lines 201-209 of `tavily_reddit.py`: search the URL
path for the literal slash-r-slash followed by at least one non-slash
character, backtracking to later occurrences when the capture would be
empty. -/
def subredditSearch : PyStr → Option PyStr
  | [] => none
  | c :: rest =>
      if leadsB ("/r/".data) (c :: rest) then
        match (c :: rest).drop 3 with
        | [] => subredditSearch rest
        | d :: tail =>
            if d == '/' then subredditSearch rest
            else some (d :: tail.takeWhile (fun x => x != '/'))
      else subredditSearch rest

/-- Lines 201-209 of `tavily_reddit.py`: subreddit from the URL path, with
any exception (non-string url, bracket ValueError) caught and an empty
subreddit kept. -/
def subredditOf (url : JVal) : PyStr :=
  match url with
  | .str s =>
      match pathOf? s with
      | some p => (subredditSearch p).getD []
      | none => []
  | _ => []

/-- Item record built by `parse_reddit_response` lines 225-233 of
`tavily_reddit.py`. -/
def mkItem (i : ℕ) (title : PyStr) (url : JVal) (subreddit : PyStr)
    (date : JVal) (relevance : ℚ) : PyDict :=
  [("id".data, .str ('R' :: (Nat.repr (i + 1)).data)),
   ("title".data, .str (title.take 200)),
   ("url".data, url),
   ("subreddit".data, .str subreddit),
   ("date".data, date),
   ("why_relevant".data, .str []),
   ("relevance".data, .num relevance)]

/-- Title of lines 195-197 of `tavily_reddit.py`: the stripped title, or,
when empty, the first hundred characters of the stripped content. -/
def redditTitle (r : PyDict) : PyStr :=
  let t0 := pyStrip (pyStrOf (dget r ("title".data) (.str [])))
  if t0.isEmpty then
    (pyStrip (pyStrOf (dget r ("content".data) (.str [])))).take 100
  else t0

/-- Nulling of lines 215-216 of `tavily_reddit.py`: a truthy date whose
`str()` fails the strict pattern becomes None. -/
def redditDate (d0 : JVal) : JVal :=
  if truthy d0 && !isoShape (pyStrOf d0) then JVal.null else d0

/-- Body of the `parse_reddit_response` loop of `tavily_reddit.py` (lines
187-233) for the result at index `i`: skip non-dicts, falsy urls, urls not
containing the text reddit.com (raising TypeError when the url supports no
`in` test), and items with no title after the content fallback; a truthy
date that fails the strict pattern is set to None. -/
def parseItem (i : ℕ) (result : JVal) : Except Unit (Option PyDict) :=
  match result with
  | .obj r =>
      if !truthy (dget r ("url".data) (.str [])) then .ok none
      else
        match pyContains ("reddit.com".data) (dget r ("url".data) (.str [])) with
        | .error e => .error e
        | .ok false => .ok none
        | .ok true =>
            if (redditTitle r).isEmpty then .ok none
            else
              match dateStep r with
              | .error e => .error e
              | .ok d0 =>
                  .ok (some (mkItem i (redditTitle r)
                    (dget r ("url".data) (.str []))
                    (subredditOf (dget r ("url".data) (.str [])))
                    (redditDate d0) (scoreRelevance r)))
  | _ => .ok none

/-- Items of a list lacking a date, the partition of `_enrich_dates` line
95. -/
def datelessItems (items : List PyDict) : List PyDict :=
  items.filter (fun it => !truthy (dget it ("date".data) .null))

/-- Count of items lacking a date. -/
def datelessCount (items : List PyDict) : ℕ := (datelessItems items).length

/-- Worker bound of `_enrich_dates` line 101:
`max_workers = min(5, len(items_needing_dates))`. -/
def max_workers (items : List PyDict) : ℕ := min 5 (datelessCount items)

/-- Source `_enrich_dates` of `tavily_reddit.py` (lines 89-120) with the
per-item fetch (`_fetch_date_from_reddit`, its HTTP call, its JSON-shape
walk and the outer 15-second result wait) abstracted as `fetch`: `none`
covers a fetch that fails, times out, or yields no parsable date, and the
coordinator catches those outcomes per task.  When no item lacks a date the
function returns at once, consulting the fetch for nothing.  The dict
comprehension of lines 105-108 reads `item["url"]` of every dateless item,
so a dateless item without a url raises KeyError (`.error`).  Items keep
their list positions; only the `date` of a dateless item whose fetch yields
a truthy date is set. -/
def enrich_dates (fetch : JVal → Option PyStr) (items : List PyDict) :
    Except Unit (List PyDict) :=
  if (datelessItems items).isEmpty then .ok items
  else if (datelessItems items).all (fun it => (dget? it ("url".data)).isSome) then
    .ok (items.map (fun it =>
      if truthy (dget it ("date".data) .null) then it
      else
        match fetch (dget it ("url".data) .null) with
        | some d => if d.isEmpty then it else dset it ("date".data) (.str d)
        | none => it))
  else .error ()

/-- Source `parse_reddit_response` of `tavily_reddit.py`: an empty list when
`results` is missing or not a list, else the loop over the results followed,
when any item was kept, by date enrichment. -/
def parse_reddit_response (fetch : JVal → Option PyStr) (response : PyDict) :
    Except Unit (List PyDict) :=
  match dget response ("results".data) (.arr []) with
  | .arr l =>
      match exceptLoop parseItem 0 l with
      | .error e => .error e
      | .ok items => if items.isEmpty then .ok items else enrich_dates fetch items
  | _ => .ok []

/-- Modelled from the spec: the executor the repository's `_enrich_dates`
builds (`ThreadPoolExecutor(max_workers=...)`, standard library, outside
src/) starts a submitted task only when fewer than `max_workers` tasks are
running.  A run is a list of events, `true` a task start and `false` a task
completion; `poolRunOk w inflight evs` checks that every start happens with
fewer than `w` tasks in flight and every completion with at least one. -/
def poolRunOk (w : ℕ) : ℕ → List Bool → Bool
  | _, [] => true
  | inflight, true :: evs => decide (inflight < w) && poolRunOk w (inflight + 1) evs
  | inflight, false :: evs => decide (0 < inflight) && poolRunOk w (inflight - 1) evs

/-- Tasks in flight after a list of events, starting from `c`. -/
def inflightAfter : ℕ → List Bool → ℕ
  | c, [] => c
  | c, true :: evs => inflightAfter (c + 1) evs
  | c, false :: evs => inflightAfter (c - 1) evs

end tavily_reddit

/-- Items of a normalizer run, the empty list when it raised. -/
def okItems (e : Except Unit (List PyDict)) : List PyDict :=
  match e with
  | .ok l => l
  | .error _ => []

/-- Whether a run returned without raising. -/
def isOk (e : Except Unit (List PyDict)) : Bool :=
  match e with
  | .ok _ => true
  | .error _ => false

/-- Relevance of an item, when it is a number. -/
def relevanceOf (it : PyDict) : Option ℚ :=
  match dget? it ("relevance".data) with
  | some (.num q) => some q
  | _ => none

/-- Title of an item, when it is a string. -/
def titleStrOf (it : PyDict) : Option PyStr :=
  match dget? it ("title".data) with
  | some (.str s) => some s
  | _ => none

/-- Url value of an item. -/
def urlValOf (it : PyDict) : Option JVal := dget? it ("url".data)

/-- Url of an item, when it is a string. -/
def urlStrOf (it : PyDict) : Option PyStr :=
  match dget? it ("url".data) with
  | some (.str s) => some s
  | _ => none

/-- Date value of an item. -/
def dateValOf (it : PyDict) : Option JVal := dget? it ("date".data)

/-- The item carries a numeric relevance in the unit interval. -/
def relevance01 (it : PyDict) : Bool :=
  match relevanceOf it with
  | some q => decide (0 ≤ q) && decide (q ≤ 1)
  | none => false

/-- The item carries a numeric relevance between 0.50 and 1.00. -/
def relevanceHalfToOne (it : PyDict) : Bool :=
  match relevanceOf it with
  | some q => decide (1 / 2 ≤ q) && decide (q ≤ 1)
  | none => false

/-- The item carries a string title of at most 200 characters. -/
def titleLenOk (it : PyDict) : Bool :=
  match titleStrOf it with
  | some t => decide (t.length ≤ 200)
  | none => false

/-- Any snippet the item carries is a string of at most 500 characters. -/
def snippetLenOk (it : PyDict) : Bool :=
  match dget? it ("snippet".data) with
  | some (.str s) => decide (s.length ≤ 500)
  | some _ => false
  | none => true

/-- The item carries a truthy url. -/
def urlTruthy (it : PyDict) : Bool :=
  match urlValOf it with
  | some v => truthy v
  | none => false

/-- The item carries a non-empty string title. -/
def titleNonempty (it : PyDict) : Bool :=
  match titleStrOf it with
  | some t => !t.isEmpty
  | none => false

/-- Any string url the item carries has no denylisted host: when the url
parses with a netloc, its lowercasing is not in `EXCLUDED_DOMAINS`. -/
def urlNotDenylisted (it : PyDict) : Bool :=
  match urlStrOf it with
  | some s =>
      match netlocOf? s with
      | some n => !perplexity_search.EXCLUDED_DOMAINS.contains (lowerStr n)
      | none => true
  | none => true

/-- Any truthy date the item carries is a string of strict
year-month-day shape. -/
def dateIsoOrFalsy (it : PyDict) : Bool :=
  match dateValOf it with
  | some v =>
      !truthy v ||
        (match v with
         | .str s => isoShape s
         | _ => false)
  | none => true

/-- The item carries a truthy url that Python-contains the text reddit.com;
when that url is a string it is non-empty and has reddit.com as a
substring. -/
def urlHasRedditCom (it : PyDict) : Bool :=
  match urlValOf it with
  | some v =>
      truthy v &&
        (match pyContains ("reddit.com".data) v with
         | .ok b => b
         | .error _ => false) &&
        (match v with
         | .str s => substrB ("reddit.com".data) s && !s.isEmpty
         | _ => true)
  | none => false

lemma clamp01_nonneg (q : ℚ) : 0 ≤ clamp01 q :=
  le_min (by norm_num) (le_max_left 0 q)

lemma clamp01_le_one (q : ℚ) : clamp01 q ≤ 1 := min_le_left 1 _

lemma scoreRelevance_nonneg (r : PyDict) : 0 ≤ scoreRelevance r := by
  unfold scoreRelevance
  split
  · exact clamp01_nonneg _
  · norm_num

lemma scoreRelevance_le_one (r : PyDict) : scoreRelevance r ≤ 1 := by
  unfold scoreRelevance
  split
  · exact clamp01_le_one _
  · norm_num

lemma take_len_le {α : Type} (n : ℕ) (l : List α) : (l.take n).length ≤ n := by
  simp [List.length_take]

lemma domainStep_not_denylisted (s : PyStr) (d n : PyStr)
    (h : domainStep (.str s) = some d) (hn : netlocOf? s = some n) :
    lowerStr n ∉ perplexity_search.EXCLUDED_DOMAINS := by
  simp only [domainStep, hn] at h
  intro hmem
  rw [if_pos (by simpa using hmem)] at h
  exact absurd h (by simp)

lemma tavilyItem_props (i : ℕ) (result : JVal) (it : PyDict)
    (h : tavily_search.normalizeItem i result = .ok (some it)) :
    relevance01 it = true ∧ titleLenOk it = true ∧ snippetLenOk it = true ∧
      urlTruthy it = true ∧ urlNotDenylisted it = true := by
  cases result with
  | obj r =>
    simp only [tavily_search.normalizeItem] at h
    split at h
    · exact absurd h (by simp)
    · rename_i hu
      split at h
      · exact absurd h (by simp)
      · rename_i domain hdom
        split at h
        · exact absurd h (by simp)
        · split at h
          · exact absurd h (by simp)
          · rename_i date hdate
            rw [Except.ok.injEq, Option.some.injEq] at h
            subst h
            refine ⟨?_, ?_, ?_, ?_, ?_⟩
            · simp only [relevance01, show relevanceOf (tavily_search.mkItem i _ _ _ _ _ _ (scoreRelevance r)) = some (scoreRelevance r) from rfl]
              simp [scoreRelevance_nonneg, scoreRelevance_le_one]
            · simp only [titleLenOk, show titleStrOf (tavily_search.mkItem i _ _ _ _ _ _ (scoreRelevance r)) = some (List.take 200 _) from rfl]
              simp [take_len_le]
            · simp only [snippetLenOk, show dget? (tavily_search.mkItem i _ _ _ _ _ _ (scoreRelevance r)) ("snippet".data) = some (.str (List.take 500 _)) from rfl]
              simp [take_len_le]
            · simp only [urlTruthy, urlValOf, show dget? (tavily_search.mkItem i _ (dget r ("url".data) (.str [])) _ _ _ _ (scoreRelevance r)) ("url".data) = some (dget r ("url".data) (.str [])) from rfl]
              simp only [Bool.not_eq_true'] at hu
              simp [hu]
            · simp only [urlNotDenylisted, urlStrOf, show dget? (tavily_search.mkItem i _ (dget r ("url".data) (.str [])) _ _ _ _ (scoreRelevance r)) ("url".data) = some (dget r ("url".data) (.str [])) from rfl]
              cases hv : dget r ("url".data) (.str []) with
              | str s =>
                  cases hn : netlocOf? s with
                  | none => simp [hn]
                  | some n =>
                      rw [hv] at hdom
                      simp [hn, domainStep_not_denylisted s domain n hdom hn]
              | null => rfl
              | bool b => rfl
              | num q => rfl
              | arr l => rfl
              | obj o => rfl
  | null => simp [tavily_search.normalizeItem] at h
  | bool b => simp [tavily_search.normalizeItem] at h
  | num q => simp [tavily_search.normalizeItem] at h
  | str s => simp [tavily_search.normalizeItem] at h
  | arr l => simp [tavily_search.normalizeItem] at h
lemma isoShape_obracket (xs : PyStr) : isoShape ('[' :: xs) = false := rfl

lemma isoShape_obrace (xs : PyStr) : isoShape (obraceChar :: xs) = false := rfl

lemma dateSlice_ok_shape (d0 d : JVal) (h : dateSlice d0 = .ok d)
    (ht : truthy d = true) :
    (∃ s, d = .str s) ∨ (∃ l, d = .arr l) ∨ (∃ l, d = .obj l) := by
  unfold dateSlice at h
  split at h
  · rename_i htr
    split at h
    · exact absurd h (by simp)
    · rename_i L hL
      split at h
      · split at h
        · rename_i s heq
          rw [Except.ok.injEq] at h
          exact Or.inl ⟨_, h.symm⟩
        · rename_i l heq
          rw [Except.ok.injEq] at h
          exact Or.inr (Or.inl ⟨_, h.symm⟩)
        · exact absurd h (by simp)
      · rw [Except.ok.injEq] at h
        subst h
        cases d0 with
        | str s => exact Or.inl ⟨_, rfl⟩
        | arr l => exact Or.inr (Or.inl ⟨_, rfl⟩)
        | obj l => exact Or.inr (Or.inr ⟨_, rfl⟩)
        | null => simp [pyLen?] at hL
        | bool b => simp [pyLen?] at hL
        | num q => simp [pyLen?] at hL
  · rename_i htr
    rw [Except.ok.injEq] at h
    subst h
    simp at htr
    rw [htr] at ht
    exact absurd ht (by simp)

lemma redditDate_iso (dv d1 : JVal) (hs : dateSlice dv = .ok d1)
    (ht : truthy (tavily_reddit.redditDate d1) = true) :
    ∃ s, tavily_reddit.redditDate d1 = .str s ∧ isoShape s = true := by
  unfold tavily_reddit.redditDate at ht ⊢
  by_cases hcond : (truthy d1 && !isoShape (pyStrOf d1)) = true
  · rw [if_pos hcond] at ht
    exact absurd ht (by simp [truthy])
  · rw [if_neg hcond] at ht ⊢
    rw [Bool.and_eq_true, not_and] at hcond
    have hiso : isoShape (pyStrOf d1) = true := by
      have := hcond ht
      simpa using this
    rcases dateSlice_ok_shape dv d1 hs ht with ⟨s, rfl⟩ | ⟨l, rfl⟩ | ⟨l, rfl⟩
    · exact ⟨s, rfl, hiso⟩
    · rw [show pyStrOf (.arr l) = '[' :: (pyReprArr l ++ [']']) from rfl,
        isoShape_obracket] at hiso
      exact absurd hiso (by simp)
    · rw [show pyStrOf (.obj l) = obraceChar :: (pyReprObj l ++ [cbraceChar]) from rfl,
        isoShape_obrace] at hiso
      exact absurd hiso (by simp)

lemma redditItem_props (i : ℕ) (result : JVal) (it : PyDict)
    (h : tavily_reddit.parseItem i result = .ok (some it)) :
    relevance01 it = true ∧ titleLenOk it = true ∧ snippetLenOk it = true ∧
      urlTruthy it = true ∧ titleNonempty it = true ∧
      urlHasRedditCom it = true ∧ dateIsoOrFalsy it = true := by
  cases result with
  | obj r =>
    simp only [tavily_reddit.parseItem] at h
    split at h
    · exact absurd h (by simp)
    · rename_i hu
      split at h
      · exact absurd h (by simp)
      · exact absurd h (by simp)
      · rename_i hc
        split at h
        · exact absurd h (by simp)
        · rename_i hne
          split at h
          · exact absurd h (by simp)
          · rename_i d0 hdate
            rw [Except.ok.injEq, Option.some.injEq] at h
            subst h
            have hu' : truthy (dget r ("url".data) (.str [])) = true := by
              revert hu
              cases truthy (dget r ("url".data) (.str [])) <;> simp
            refine ⟨?_, ?_, ?_, ?_, ?_, ?_, ?_⟩
            · simp only [relevance01, show relevanceOf (tavily_reddit.mkItem i _ _ _ _ (scoreRelevance r)) = some (scoreRelevance r) from rfl]
              simp [scoreRelevance_nonneg, scoreRelevance_le_one]
            · simp only [titleLenOk, show titleStrOf (tavily_reddit.mkItem i _ _ _ _ (scoreRelevance r)) = some (List.take 200 _) from rfl]
              simp [take_len_le]
            · rfl
            · simp only [urlTruthy, urlValOf, show dget? (tavily_reddit.mkItem i _ (dget r ("url".data) (.str [])) _ _ (scoreRelevance r)) ("url".data) = some (dget r ("url".data) (.str [])) from rfl]
              simp [hu']
            · have hne' : tavily_reddit.redditTitle r ≠ [] := by
                intro hnil
                rw [hnil] at hne
                exact hne rfl
              simp only [titleNonempty, show titleStrOf (tavily_reddit.mkItem i _ _ _ _ (scoreRelevance r)) = some (List.take 200 (tavily_reddit.redditTitle r)) from rfl]
              simp [List.take_eq_nil_iff, hne']
            · simp only [urlHasRedditCom, urlValOf, show dget? (tavily_reddit.mkItem i _ (dget r ("url".data) (.str [])) _ _ (scoreRelevance r)) ("url".data) = some (dget r ("url".data) (.str [])) from rfl]
              cases hv : dget r ("url".data) (.str []) with
              | str s =>
                  rw [hv] at hu' hc
                  simp only [pyContains, Except.ok.injEq] at hc
                  simp only [truthy, Bool.not_eq_true'] at hu'
                  have hs : s ≠ [] := by
                    intro hnil
                    rw [hnil] at hu'
                    simp at hu'
                  simp [truthy, pyContains, hu', hc, hs]
              | arr l =>
                  rw [hv] at hu' hc
                  simp only [pyContains, Except.ok.injEq] at hc
                  simp only [truthy, Bool.not_eq_true'] at hu'
                  have hl : l ≠ [] := by
                    intro hnil
                    rw [hnil] at hu'
                    simp at hu'
                  simp [truthy, pyContains, hu', hc, hl]
              | obj o =>
                  rw [hv] at hu' hc
                  simp only [pyContains, Except.ok.injEq] at hc
                  simp only [truthy, Bool.not_eq_true'] at hu'
                  have hl : o ≠ [] := by
                    intro hnil
                    rw [hnil] at hu'
                    simp at hu'
                  simp [truthy, pyContains, hu', hc, hl]
              | null => rw [hv] at hc; exact absurd hc (by simp [pyContains])
              | bool b => rw [hv] at hc; exact absurd hc (by simp [pyContains])
              | num q => rw [hv] at hc; exact absurd hc (by simp [pyContains])
            · simp only [dateIsoOrFalsy, dateValOf, show dget? (tavily_reddit.mkItem i _ _ _ (tavily_reddit.redditDate d0) (scoreRelevance r)) ("date".data) = some (tavily_reddit.redditDate d0) from rfl]
              by_cases htr : truthy (tavily_reddit.redditDate d0) = true
              · unfold dateStep at hdate
                rcases redditDate_iso _ d0 hdate htr with ⟨s, hds, hiso⟩
                rw [hds]
                simp [hiso]
              · simp only [Bool.not_eq_true] at htr
                rw [htr]
                simp
  | null => simp [tavily_reddit.parseItem] at h
  | bool b => simp [tavily_reddit.parseItem] at h
  | num q => simp [tavily_reddit.parseItem] at h
  | str s => simp [tavily_reddit.parseItem] at h
  | arr l => simp [tavily_reddit.parseItem] at h
lemma round2_mono {a b : ℚ} (h : a ≤ b) : round2 a ≤ round2 b := by
  unfold round2
  have hf : (⌊a * 100 + 1 / 2⌋ : ℤ) ≤ ⌊b * 100 + 1 / 2⌋ :=
    Int.floor_le_floor (by linarith)
  have hc : ((⌊a * 100 + 1 / 2⌋ : ℤ) : ℚ) ≤ ((⌊b * 100 + 1 / 2⌋ : ℤ) : ℚ) :=
    Int.cast_le.mpr hf
  linarith

lemma round2_half : round2 (1 / 2) = 1 / 2 := by
  norm_num [round2]

lemma round2_one : round2 1 = 1 := by
  norm_num [round2]

lemma relevanceFormula_bounds (count i rc : ℕ) :
    1 / 2 ≤ perplexity_search.relevanceFormula count i rc ∧
      perplexity_search.relevanceFormula count i rc ≤ 1 := by
  unfold perplexity_search.relevanceFormula
  set p : ℚ := max 0 (1 - (i : ℚ) / ((max count 1 : ℕ) : ℚ)) with hp
  set b : ℚ := min (1 / 10) (((rc : ℚ) - 1) * (1 / 20)) with hb
  have hp0 : 0 ≤ p := le_max_left 0 _
  have hp1 : p ≤ 1 := by
    apply max_le (by norm_num)
    have : 0 ≤ (i : ℚ) / ((max count 1 : ℕ) : ℚ) :=
      div_nonneg (by positivity) (by positivity)
    linarith
  have hb0 : -(1 / 20) ≤ b := by
    apply le_min (by norm_num)
    have : (0 : ℚ) ≤ (rc : ℚ) := by positivity
    nlinarith
  have hb1 : b ≤ 1 / 10 := min_le_left _ _
  constructor
  · calc (1 / 2 : ℚ) = round2 (1 / 2) := round2_half.symm
    _ ≤ round2 (11 / 20 + 7 / 20 * p + b) := round2_mono (by nlinarith)
  · calc round2 (11 / 20 + 7 / 20 * p + b) ≤ round2 1 := round2_mono (by nlinarith)
    _ = 1 := round2_one

lemma pplxItem_props (cs : Option PyStr) (count i : ℕ) (u : JVal) (it : PyDict)
    (h : perplexity_search.normalizeItem cs count i u = some it) :
    relevance01 it = true ∧ relevanceHalfToOne it = true ∧
      titleLenOk it = true ∧ snippetLenOk it = true ∧ urlTruthy it = true ∧
      urlNotDenylisted it = true ∧
      relevanceOf it =
        some (perplexity_search.relevanceFormula count i
          (perplexity_search.refCountOf cs (i + 1))) := by
  cases u with
  | str s =>
    simp only [perplexity_search.normalizeItem] at h
    split at h
    · exact absurd h (by simp)
    · rename_i hs
      split at h
      · exact absurd h (by simp)
      · rename_i domain hdom
        rw [Option.some.injEq] at h
        subst h
        have hrel := relevanceFormula_bounds count i
          (perplexity_search.refCountOf cs (i + 1))
        refine ⟨?_, ?_, ?_, ?_, ?_, ?_, rfl⟩
        · simp only [relevance01, show relevanceOf (perplexity_search.mkItem i _ s _ _ (perplexity_search.relevanceFormula count i (perplexity_search.refCountOf cs (i + 1)))) = some (perplexity_search.relevanceFormula count i (perplexity_search.refCountOf cs (i + 1))) from rfl]
          have h0 : (0 : ℚ) ≤ perplexity_search.relevanceFormula count i (perplexity_search.refCountOf cs (i + 1)) := by linarith [hrel.1]
          simp [h0, hrel.2]
        · simp only [relevanceHalfToOne, show relevanceOf (perplexity_search.mkItem i _ s _ _ (perplexity_search.relevanceFormula count i (perplexity_search.refCountOf cs (i + 1)))) = some (perplexity_search.relevanceFormula count i (perplexity_search.refCountOf cs (i + 1))) from rfl]
          simp only [Bool.and_eq_true, decide_eq_true_eq]
          exact ⟨by linarith [hrel.1], hrel.2⟩
        · simp only [titleLenOk, show titleStrOf (perplexity_search.mkItem i _ s _ _ (perplexity_search.relevanceFormula count i (perplexity_search.refCountOf cs (i + 1)))) = some (List.take 200 _) from rfl]
          simp [take_len_le]
        · simp only [snippetLenOk, show dget? (perplexity_search.mkItem i _ s _ _ (perplexity_search.relevanceFormula count i (perplexity_search.refCountOf cs (i + 1)))) ("snippet".data) = some (.str ((Option.map (fun x => List.take 500 x) (cs.bind (fun c => perplexity_search.extract_snippet_for_citation c (i + 1)))).getD [])) from rfl]
          cases hsn : (cs.bind (fun c => perplexity_search.extract_snippet_for_citation c (i + 1))) with
          | none => simp [hsn]
          | some sn => simp [hsn, take_len_le]
        · simp only [urlTruthy, urlValOf, show dget? (perplexity_search.mkItem i _ s _ _ (perplexity_search.relevanceFormula count i (perplexity_search.refCountOf cs (i + 1)))) ("url".data) = some (.str s) from rfl]
          simp only [Bool.not_eq_true] at hs
          simp [truthy, hs]
        · simp only [urlNotDenylisted, urlStrOf, show dget? (perplexity_search.mkItem i _ s _ _ (perplexity_search.relevanceFormula count i (perplexity_search.refCountOf cs (i + 1)))) ("url".data) = some (.str s) from rfl]
          cases hn : netlocOf? s with
          | none => simp [hn]
          | some n => simp [hn, domainStep_not_denylisted s domain n hdom hn]
  | null => simp [perplexity_search.normalizeItem] at h
  | bool b => simp [perplexity_search.normalizeItem] at h
  | num q => simp [perplexity_search.normalizeItem] at h
  | arr l => simp [perplexity_search.normalizeItem] at h
  | obj o => simp [perplexity_search.normalizeItem] at h
lemma exceptLoop_mem (f : ℕ → JVal → Except Unit (Option PyDict)) :
    ∀ (l : List JVal) (i : ℕ) (out : List PyDict) (it : PyDict),
      exceptLoop f i l = .ok out → it ∈ out →
      ∃ j r, f j r = .ok (some it) := by
  intro l
  induction l with
  | nil =>
      intro i out it h hm
      simp only [exceptLoop] at h
      rw [Except.ok.injEq] at h
      subst h
      exact absurd hm (by simp)
  | cons r rest ih =>
      intro i out it h hm
      simp only [exceptLoop] at h
      split at h
      · exact absurd h (by simp)
      · exact ih (i + 1) out it h hm
      · rename_i it0 hit0
        cases hrest : exceptLoop f (i + 1) rest with
        | error e => rw [hrest] at h; exact absurd h (by simp [Except.map])
        | ok out' =>
            rw [hrest] at h
            simp only [Except.map, Except.ok.injEq] at h
            subst h
            rcases List.mem_cons.mp hm with hhead | htail
            · exact ⟨i, r, by rw [← hhead] at hit0; exact hit0⟩
            · exact ih (i + 1) out' it hrest htail

lemma pplxLoop_mem (cs : Option PyStr) (count : ℕ) :
    ∀ (l : List JVal) (i : ℕ) (it : PyDict),
      it ∈ perplexity_search.normalizeLoop cs count i l →
      ∃ j, ∃ hj : j < l.length,
        perplexity_search.normalizeItem cs count (i + j) (l.get ⟨j, hj⟩) =
          some it := by
  intro l
  induction l with
  | nil =>
      intro i it hm
      exact absurd hm (by simp [perplexity_search.normalizeLoop])
  | cons u rest ih =>
      intro i it hm
      simp only [perplexity_search.normalizeLoop] at hm
      split at hm
      · rcases ih (i + 1) it hm with ⟨j, hj, hitem⟩
        refine ⟨j + 1, by simpa using Nat.succ_lt_succ hj, ?_⟩
        simpa [Nat.add_assoc, Nat.add_comm 1 j] using hitem
      · rename_i it0 hit0
        rcases List.mem_cons.mp hm with hhead | htail
        · exact ⟨0, by simp, by simpa [← hhead] using hit0⟩
        · rcases ih (i + 1) it htail with ⟨j, hj, hitem⟩
          refine ⟨j + 1, by simpa using Nat.succ_lt_succ hj, ?_⟩
          simpa [Nat.add_assoc, Nat.add_comm 1 j] using hitem
lemma dget?_dset_ne (d : PyDict) (k k' : PyStr) (v : JVal) (hne : k' ≠ k) :
    dget? (dset d k v) k' = dget? d k' := by
  induction d with
  | nil =>
      simp only [dset, dget?, List.find?]
      rw [show (k == k') = false from by
        rw [beq_eq_false_iff_ne]
        exact fun h => hne h.symm]
  | cons p rest ih =>
      obtain ⟨k0, v0⟩ := p
      simp only [dset]
      by_cases h0 : (k0 == k) = true
      · rw [if_pos h0]
        have hk0 : k0 = k := by simpa using h0
        subst hk0
        simp only [dget?, List.find?]
        rw [show (k0 == k') = false from by
          rw [beq_eq_false_iff_ne]
          exact fun h => hne h.symm]
      · rw [if_neg h0]
        simp only [dget?, List.find?]
        cases hk0 : (k0 == k') with
        | true => rfl
        | false => exact ih

lemma dget?_dset_self (d : PyDict) (k : PyStr) (v : JVal) :
    dget? (dset d k v) k = some v := by
  induction d with
  | nil => simp [dset, dget?]
  | cons p rest ih =>
      obtain ⟨k0, v0⟩ := p
      simp only [dset]
      by_cases h0 : (k0 == k) = true
      · rw [if_pos h0]
        simp only [dget?, List.find?, h0]
        rfl
      · rw [if_neg h0]
        simp only [dget?, List.find?]
        rw [show (k0 == k) = false from by simpa using h0]
        exact ih

/-- One item's transformation inside `enrich_dates`. -/
def enrichOne (fetch : JVal → Option PyStr) (it : PyDict) : PyDict :=
  if truthy (dget it ("date".data) .null) then it
  else
    match fetch (dget it ("url".data) .null) with
    | some d => if d.isEmpty then it else dset it ("date".data) (.str d)
    | none => it

lemma enrich_dates_ok (fetch : JVal → Option PyStr) (items out : List PyDict)
    (h : tavily_reddit.enrich_dates fetch items = .ok out) :
    out = items ∨ out = items.map (enrichOne fetch) := by
  unfold tavily_reddit.enrich_dates at h
  split at h
  · rw [Except.ok.injEq] at h
    exact Or.inl h.symm
  · split at h
    · rw [Except.ok.injEq] at h
      exact Or.inr h.symm
    · exact absurd h (by simp)

lemma enrichOne_cases (fetch : JVal → Option PyStr) (it : PyDict) :
    enrichOne fetch it = it ∨
      ∃ d, fetch (dget it ("url".data) .null) = some d ∧ d ≠ [] ∧
        enrichOne fetch it = dset it ("date".data) (.str d) := by
  unfold enrichOne
  split
  · exact Or.inl rfl
  · split
    · rename_i d hd
      by_cases hde : d.isEmpty = true
      · rw [if_pos hde]
        exact Or.inl rfl
      · rw [if_neg hde]
        exact Or.inr ⟨d, hd, by simpa using hde, rfl⟩
    · exact Or.inl rfl
lemma enrichOne_nondate (fetch : JVal → Option PyStr) (it : PyDict)
    (k : PyStr) (hk : k ≠ "date".data) :
    dget? (enrichOne fetch it) k = dget? it k := by
  rcases enrichOne_cases fetch it with heq | ⟨d, _, _, heq⟩
  · rw [heq]
  · rw [heq]
    exact dget?_dset_ne it _ k (.str d) hk

lemma relevance01_enrichOne (fetch : JVal → Option PyStr) (it : PyDict) :
    relevance01 (enrichOne fetch it) = relevance01 it := by
  unfold relevance01 relevanceOf
  rw [enrichOne_nondate fetch it _ (by decide)]

lemma titleLenOk_enrichOne (fetch : JVal → Option PyStr) (it : PyDict) :
    titleLenOk (enrichOne fetch it) = titleLenOk it := by
  unfold titleLenOk titleStrOf
  rw [enrichOne_nondate fetch it _ (by decide)]

lemma titleNonempty_enrichOne (fetch : JVal → Option PyStr) (it : PyDict) :
    titleNonempty (enrichOne fetch it) = titleNonempty it := by
  unfold titleNonempty titleStrOf
  rw [enrichOne_nondate fetch it _ (by decide)]

lemma snippetLenOk_enrichOne (fetch : JVal → Option PyStr) (it : PyDict) :
    snippetLenOk (enrichOne fetch it) = snippetLenOk it := by
  unfold snippetLenOk
  rw [enrichOne_nondate fetch it _ (by decide)]

lemma urlTruthy_enrichOne (fetch : JVal → Option PyStr) (it : PyDict) :
    urlTruthy (enrichOne fetch it) = urlTruthy it := by
  unfold urlTruthy urlValOf
  rw [enrichOne_nondate fetch it _ (by decide)]

lemma urlHasRedditCom_enrichOne (fetch : JVal → Option PyStr) (it : PyDict) :
    urlHasRedditCom (enrichOne fetch it) = urlHasRedditCom it := by
  unfold urlHasRedditCom urlValOf
  rw [enrichOne_nondate fetch it _ (by decide)]

lemma dateIsoOrFalsy_enrichOne (fetch : JVal → Option PyStr) (it : PyDict)
    (hfetch : ∀ u d, fetch u = some d → isoShape d = true)
    (hit : dateIsoOrFalsy it = true) :
    dateIsoOrFalsy (enrichOne fetch it) = true := by
  rcases enrichOne_cases fetch it with heq | ⟨d, hfd, hdne, heq⟩
  · rw [heq]
    exact hit
  · rw [heq]
    unfold dateIsoOrFalsy dateValOf
    rw [dget?_dset_self]
    simp [hfetch _ _ hfd]

lemma reddit_mem_props (fetch : JVal → Option PyStr) (resp : PyDict)
    (out : List PyDict) (it : PyDict)
    (h : tavily_reddit.parse_reddit_response fetch resp = .ok out)
    (hm : it ∈ out) :
    relevance01 it = true ∧ titleLenOk it = true ∧ snippetLenOk it = true ∧
      urlTruthy it = true ∧ titleNonempty it = true ∧
      urlHasRedditCom it = true ∧
      ((∀ u d, fetch u = some d → isoShape d = true) →
        dateIsoOrFalsy it = true) := by
  unfold tavily_reddit.parse_reddit_response at h
  cases hres : dget resp ("results".data) (.arr []) with
  | arr l =>
      rw [hres] at h
      dsimp only at h
      cases hloop : exceptLoop tavily_reddit.parseItem 0 l with
      | error e =>
          rw [hloop] at h
          dsimp only at h
          exact absurd h (by simp)
      | ok items =>
          rw [hloop] at h
          dsimp only at h
          by_cases hemp : items.isEmpty = true
          · rw [if_pos hemp] at h
            rw [Except.ok.injEq] at h
            subst h
            rw [List.isEmpty_iff] at hemp
            rw [hemp] at hm
            exact absurd hm (by simp)
          · rw [if_neg hemp] at h
            rcases enrich_dates_ok fetch items out h with heq | heq
            · subst heq
              rcases exceptLoop_mem tavily_reddit.parseItem l 0 out it hloop hm
                with ⟨j, r, hitem⟩
              have hp := redditItem_props j r it hitem
              exact ⟨hp.1, hp.2.1, hp.2.2.1, hp.2.2.2.1, hp.2.2.2.2.1,
                hp.2.2.2.2.2.1, fun _ => hp.2.2.2.2.2.2⟩
            · subst heq
              rcases List.mem_map.mp hm with ⟨it0, hit0, hmap⟩
              rcases exceptLoop_mem tavily_reddit.parseItem l 0 items it0 hloop
                hit0 with ⟨j, r, hitem⟩
              have hp := redditItem_props j r it0 hitem
              subst hmap
              refine ⟨?_, ?_, ?_, ?_, ?_, ?_, ?_⟩
              · rw [relevance01_enrichOne]; exact hp.1
              · rw [titleLenOk_enrichOne]; exact hp.2.1
              · rw [snippetLenOk_enrichOne]; exact hp.2.2.1
              · rw [urlTruthy_enrichOne]; exact hp.2.2.2.1
              · rw [titleNonempty_enrichOne]; exact hp.2.2.2.2.1
              · rw [urlHasRedditCom_enrichOne]; exact hp.2.2.2.2.2.1
              · intro hfetch
                exact dateIsoOrFalsy_enrichOne fetch it0 hfetch hp.2.2.2.2.2.2
  | null => rw [hres] at h; rw [Except.ok.injEq] at h; subst h; exact absurd hm (by simp)
  | bool b => rw [hres] at h; rw [Except.ok.injEq] at h; subst h; exact absurd hm (by simp)
  | num q => rw [hres] at h; rw [Except.ok.injEq] at h; subst h; exact absurd hm (by simp)
  | str s => rw [hres] at h; rw [Except.ok.injEq] at h; subst h; exact absurd hm (by simp)
  | obj o => rw [hres] at h; rw [Except.ok.injEq] at h; subst h; exact absurd hm (by simp)

lemma tavily_mem_props (resp : PyDict) (out : List PyDict) (it : PyDict)
    (h : tavily_search.normalize_results resp = .ok out) (hm : it ∈ out) :
    relevance01 it = true ∧ titleLenOk it = true ∧ snippetLenOk it = true ∧
      urlTruthy it = true ∧ urlNotDenylisted it = true := by
  unfold tavily_search.normalize_results at h
  cases hres : dget resp ("results".data) (.arr []) with
  | arr l =>
      rw [hres] at h
      dsimp only at h
      rcases exceptLoop_mem tavily_search.normalizeItem l 0 out it h hm
        with ⟨j, r, hitem⟩
      exact tavilyItem_props j r it hitem
  | null => rw [hres] at h; rw [Except.ok.injEq] at h; subst h; exact absurd hm (by simp)
  | bool b => rw [hres] at h; rw [Except.ok.injEq] at h; subst h; exact absurd hm (by simp)
  | num q => rw [hres] at h; rw [Except.ok.injEq] at h; subst h; exact absurd hm (by simp)
  | str s => rw [hres] at h; rw [Except.ok.injEq] at h; subst h; exact absurd hm (by simp)
  | obj o => rw [hres] at h; rw [Except.ok.injEq] at h; subst h; exact absurd hm (by simp)

lemma pplx_mem_props (resp : PyDict) (out : List PyDict) (it : PyDict)
    (h : perplexity_search.normalize_results resp = .ok out) (hm : it ∈ out) :
    relevance01 it = true ∧ relevanceHalfToOne it = true ∧
      titleLenOk it = true ∧ snippetLenOk it = true ∧ urlTruthy it = true ∧
      urlNotDenylisted it = true := by
  unfold perplexity_search.normalize_results at h
  cases hres : dget resp ("citations".data) (.arr []) with
  | arr l =>
      rw [hres] at h
      dsimp only at h
      by_cases hemp : l.isEmpty = true
      · rw [if_pos hemp] at h
        rw [Except.ok.injEq] at h
        subst h
        exact absurd hm (by simp)
      · rw [if_neg hemp] at h
        cases hcs : perplexity_search.contentStep resp with
        | error e =>
            rw [hcs] at h
            dsimp only at h
            exact absurd h (by simp)
        | ok cs =>
            rw [hcs] at h
            dsimp only at h
            rw [Except.ok.injEq] at h
            subst h
            rcases pplxLoop_mem cs l.length l 0 it hm with ⟨j, hj, hitem⟩
            have hp := pplxItem_props cs l.length (0 + j) _ it hitem
            exact ⟨hp.1, hp.2.1, hp.2.2.1, hp.2.2.2.1, hp.2.2.2.2.1,
              hp.2.2.2.2.2.1⟩
  | null => rw [hres] at h; rw [Except.ok.injEq] at h; subst h; exact absurd hm (by simp)
  | bool b => rw [hres] at h; rw [Except.ok.injEq] at h; subst h; exact absurd hm (by simp)
  | num q => rw [hres] at h; rw [Except.ok.injEq] at h; subst h; exact absurd hm (by simp)
  | str s => rw [hres] at h; rw [Except.ok.injEq] at h; subst h; exact absurd hm (by simp)
  | obj o => rw [hres] at h; rw [Except.ok.injEq] at h; subst h; exact absurd hm (by simp)
lemma poolRunOk_inflight (w : ℕ) :
    ∀ (es : List Bool) (c : ℕ), c ≤ w →
      tavily_reddit.poolRunOk w c es = true →
      ∀ p q : List Bool, es = p ++ q → tavily_reddit.inflightAfter c p ≤ w := by
  intro es
  induction es with
  | nil =>
      intro c hc _ p q heq
      have hp : p = [] := by
        cases p with
        | nil => rfl
        | cons e p' => exact absurd heq.symm (by simp)
      subst hp
      simpa [tavily_reddit.inflightAfter] using hc
  | cons e es' ih =>
      intro c hc hrun p q heq
      cases p with
      | nil => simpa [tavily_reddit.inflightAfter] using hc
      | cons e0 p' =>
          rw [List.cons_append, List.cons.injEq] at heq
          obtain ⟨he, hes⟩ := heq
          subst he
          cases e with
          | true =>
              simp only [tavily_reddit.poolRunOk, Bool.and_eq_true,
                decide_eq_true_eq] at hrun
              simpa [tavily_reddit.inflightAfter] using
                ih (c + 1) (by omega) hrun.2 p' q hes
          | false =>
              simp only [tavily_reddit.poolRunOk, Bool.and_eq_true,
                decide_eq_true_eq] at hrun
              simpa [tavily_reddit.inflightAfter] using
                ih (c - 1) (by omega) hrun.2 p' q hes

/-- Number of citations of a response, as the LLM-citation normalizer sees
them. -/
def citationCount (resp : PyDict) : ℕ :=
  match dget resp ("citations".data) (.arr []) with
  | .arr l => l.length
  | _ => 0

lemma pplx_mem_formula (resp : PyDict) (out : List PyDict) (it : PyDict)
    (h : perplexity_search.normalize_results resp = .ok out) (hm : it ∈ out) :
    ∃ cs i, perplexity_search.contentStep resp = .ok cs ∧
      i < citationCount resp ∧
      relevanceOf it = some (perplexity_search.relevanceFormula
        (citationCount resp) i (perplexity_search.refCountOf cs (i + 1))) := by
  unfold perplexity_search.normalize_results at h
  cases hres : dget resp ("citations".data) (.arr []) with
  | arr l =>
      rw [hres] at h
      dsimp only at h
      by_cases hemp : l.isEmpty = true
      · rw [if_pos hemp] at h
        rw [Except.ok.injEq] at h
        subst h
        exact absurd hm (by simp)
      · rw [if_neg hemp] at h
        cases hcs : perplexity_search.contentStep resp with
        | error e =>
            rw [hcs] at h
            dsimp only at h
            exact absurd h (by simp)
        | ok cs =>
            rw [hcs] at h
            dsimp only at h
            rw [Except.ok.injEq] at h
            subst h
            rcases pplxLoop_mem cs l.length l 0 it hm with ⟨j, hj, hitem⟩
            have hp := pplxItem_props cs l.length (0 + j) _ it hitem
            refine ⟨cs, j, rfl, ?_, ?_⟩
            · simp only [citationCount, hres]
              exact hj
            · simp only [citationCount, hres]
              simpa using hp.2.2.2.2.2.2
  | null => rw [hres] at h; rw [Except.ok.injEq] at h; subst h; exact absurd hm (by simp)
  | bool b => rw [hres] at h; rw [Except.ok.injEq] at h; subst h; exact absurd hm (by simp)
  | num q => rw [hres] at h; rw [Except.ok.injEq] at h; subst h; exact absurd hm (by simp)
  | str s => rw [hres] at h; rw [Except.ok.injEq] at h; subst h; exact absurd hm (by simp)
  | obj o => rw [hres] at h; rw [Except.ok.injEq] at h; subst h; exact absurd hm (by simp)
/-! Concrete responses used by the counterexamples and witnesses below. -/

/-- Tavily response whose result has a numeric `published_date`. -/
def exTavilyNumDate : PyDict :=
  [("results".data, .arr [.obj
    [("url".data, .str ("https://e.com/a".data)),
     ("title".data, .str ("T".data)),
     ("published_date".data, .num 12345)]])]

/-- Tavily-Reddit response whose result has a numeric url. -/
def exRedditNumUrl : PyDict :=
  [("results".data, .arr [.obj
    [("url".data, .num 5),
     ("title".data, .str ("T".data))]])]

/-- Sonar response whose message content is a number. -/
def exPplxNumContent : PyDict :=
  [("citations".data, .arr [.str ("https://a.example/p1".data)]),
   ("choices".data, .arr [.obj [("message".data, .obj
     [("content".data, .num 5)])]])]

/-- Tavily response with one plain result carrying a score of 0.7. -/
def exTavilyPlain : PyDict :=
  [("results".data, .arr [.obj
    [("url".data, .str ("https://a.com/x".data)),
     ("title".data, .str ("Title".data)),
     ("score".data, .num (7 / 10))]])]

/-- First item of the plain Tavily run. -/
def exTavilyPlainItem : PyDict :=
  (okItems (tavily_search.normalize_results exTavilyPlain)).getD 0 []

/-- Content of the section-8 example of the spec. -/
def ex8content : PyStr :=
  "Intro text. [1] First Article is great. More on [2] Second Article. Also [1] again.".data

/-- Sonar response of the section-8 example of the spec. -/
def ex8resp : PyDict :=
  [("citations".data, .arr [.str ("https://a.example/p1".data),
     .str ("https://b.example/p2".data)]),
   ("choices".data, .arr [.obj [("message".data, .obj
     [("content".data, .str ex8content)])]])]

/-- First item of the section-8 run. -/
def ex8item : PyDict :=
  (okItems (perplexity_search.normalize_results ex8resp)).getD 0 []

/-- Sonar response whose first citation is absent from the non-empty
content. -/
def exPplxAbsentCitation : PyDict :=
  [("citations".data, .arr [.str ("https://a.example/p1".data),
     .str ("https://b.example/p2".data)]),
   ("choices".data, .arr [.obj [("message".data, .obj
     [("content".data, .str ("See [2] something here today.".data))])]])]

/-- Sonar response with one citation referenced three times. -/
def exPplxTripleRef : PyDict :=
  [("citations".data, .arr [.str ("https://a.example/p1".data)]),
   ("choices".data, .arr [.obj [("message".data, .obj
     [("content".data, .str ("Use [1] here and [1] there and [1] again.".data))])]])]

/-- Sonar response with eight citations of which only the first is
referenced. -/
def exPplxEight : PyDict :=
  [("citations".data, .arr
    [.str ("https://e1.example/a".data), .str ("https://e2.example/a".data),
     .str ("https://e3.example/a".data), .str ("https://e4.example/a".data),
     .str ("https://e5.example/a".data), .str ("https://e6.example/a".data),
     .str ("https://e7.example/a".data), .str ("https://e8.example/a".data)]),
   ("choices".data, .arr [.obj [("message".data, .obj
     [("content".data, .str ("Only [1] is cited in this text.".data))])]])]

/-- Tavily response whose `published_date` is no date at all. -/
def exTavilyBadDate : PyDict :=
  [("results".data, .arr [.obj
    [("url".data, .str ("https://a.com/x".data)),
     ("title".data, .str ("T".data)),
     ("published_date".data, .str ("not-a-date!!".data))]])]

/-- Tavily response whose result has an empty title but a snippet. -/
def exTavilyNoTitle : PyDict :=
  [("results".data, .arr [.obj
    [("url".data, .str ("https://a.com/x".data)),
     ("content".data, .str ("some text".data))]])]

/-- Tavily-Reddit response with a reddit.com-hosted result. -/
def exRedditHosted : PyDict :=
  [("results".data, .arr [.obj
    [("url".data, .str ("https://reddit.com/r/abc/comments/x1/t".data)),
     ("title".data, .str ("T".data))]])]

/-- First item of the reddit.com-hosted run with a fetch that recovers
nothing. -/
def exRedditHostedItem : PyDict :=
  (okItems (tavily_reddit.parse_reddit_response (fun _ => none)
    exRedditHosted)).getD 0 []

/-- Tavily-Reddit response whose result url is a list containing the
string reddit.com. -/
def exRedditListUrl : PyDict :=
  [("results".data, .arr [.obj
    [("url".data, .arr [.str ("reddit.com".data)]),
     ("title".data, .str ("T".data))]])]

/-- Tavily-Reddit response whose `published_date` fails the strict
pattern. -/
def exRedditBadDate : PyDict :=
  [("results".data, .arr [.obj
    [("url".data, .str ("https://reddit.com/r/a/comments/b/c".data)),
     ("title".data, .str ("T".data)),
     ("published_date".data, .str ("2024/13/40".data))]])]

/-- Fetch oracle that always recovers the same well-shaped date. -/
def exFetchIso : JVal → Option PyStr := fun _ => some ("2024-03-04".data)

/-- First item of the bad-date Reddit run enriched by `exFetchIso`. -/
def exRedditBadDateItem : PyDict :=
  (okItems (tavily_reddit.parse_reddit_response exFetchIso
    exRedditBadDate)).getD 0 []

/-- Seven dateless items, the batch of the section-8 enrichment example. -/
def exSevenDateless : List PyDict :=
  List.replicate 7 [("url".data, .str ("https://reddit.com/r/a/comments/b/c".data))]

/-- A pool run of seven tasks under bound five: five starts, then
completions interleaved with the remaining starts. -/
def exPoolEvents : List Bool :=
  [true, true, true, true, true, false, true, false, true]

/-- Two items, one dateless with a url and one already dated. -/
def exEnrichItems : List PyDict :=
  [[("url".data, .str ("https://reddit.com/r/a/comments/b/c".data))],
   [("date".data, .str ("2024-01-02".data)),
    ("url".data, .str ("https://reddit.com/r/x/comments/y/z".data))]]
lemma getD_zero_mem {α : Type} (l : List α) (d : α) (h : l.isEmpty = false) :
    l.getD 0 d ∈ l := by
  cases l with
  | nil => simp at h
  | cons a t =>
      have he : (a :: t).getD 0 d = a := rfl
      rw [he]
      exact List.mem_cons_self a t

lemma getD_map_lt {α β : Type} (f : α → β) (l : List α) (k : ℕ)
    (hk : k < l.length) (d : β) (d0 : α) :
    (l.map f).getD k d = f (l.getD k d0) := by
  induction l generalizing k with
  | nil => simp at hk
  | cons a t ih =>
      cases k with
      | zero => rfl
      | succ k' =>
          show (t.map f).getD k' d = f (t.getD k' d0)
          exact ih k' (by simpa using hk)

/-- C1: the spec promises that malformed-shape errors are never raised, the
fallbacks covering every shape mismatch.  The code breaks that promise: a
truthy non-sized `published_date` reaches `len(date)` in both Tavily
normalizers (TypeError), a truthy non-string url reaches the reddit.com `in`
test (TypeError), and a truthy non-string message content reaches
`re.findall` (TypeError).  Each of the three normalizers raises on the
corresponding input. -/
theorem C1_normalizers_raise :
    tavily_search.normalize_results exTavilyNumDate = .error () ∧
    tavily_reddit.parse_reddit_response (fun _ => none) exRedditNumUrl =
      .error () ∧
    perplexity_search.normalize_results exPplxNumContent = .error () :=
  ⟨rfl, rfl, rfl⟩

/-- C2: every item emitted by any of the three normalizers carries a numeric
relevance in the unit interval, a string title of at most 200 characters,
and, when it carries a snippet at all, a string snippet of at most 500
characters. -/
theorem C2_emitted_item_bounds :
    ∀ (resp : PyDict) (fetch : JVal → Option PyStr) (out : List PyDict)
      (it : PyDict),
    (tavily_search.normalize_results resp = .ok out ∨
     perplexity_search.normalize_results resp = .ok out ∨
     tavily_reddit.parse_reddit_response fetch resp = .ok out) →
    it ∈ out →
    relevance01 it = true ∧ titleLenOk it = true ∧ snippetLenOk it = true := by
  intro resp fetch out it hrun hm
  rcases hrun with h | h | h
  · have hp := tavily_mem_props resp out it h hm
    exact ⟨hp.1, hp.2.1, hp.2.2.1⟩
  · have hp := pplx_mem_props resp out it h hm
    exact ⟨hp.1, hp.2.2.1, hp.2.2.2.1⟩
  · have hp := reddit_mem_props fetch resp out it h hm
    exact ⟨hp.1, hp.2.1, hp.2.2.1⟩

/-- Witness for C2 at a concrete Tavily response. -/
theorem C2_bounds_check :
    relevance01 exTavilyPlainItem = true ∧
    titleLenOk exTavilyPlainItem = true ∧
    snippetLenOk exTavilyPlainItem = true :=
  C2_emitted_item_bounds exTavilyPlain (fun _ => none)
    (okItems (tavily_search.normalize_results exTavilyPlain))
    exTavilyPlainItem (Or.inl rfl)
    (getD_zero_mem _ _ rfl)

/-- C3 counterexample: `_enrich_dates` is not total over every items list —
a dateless item without a `url` key makes the dict comprehension of lines
105-108 raise KeyError, so the claim's "for every items list ... never
raises" fails at the one-item list holding an empty dict. -/
theorem C3_enrich_not_total :
    tavily_reddit.enrich_dates (fun _ => none) [([] : PyDict)] = .error () :=
  rfl

/-- C3 as amended: provided every dateless item has a `url` key (true of
every item the normalizer builds), `_enrich_dates` returns without raising,
under any fetch behavior, a list of the same length and order in which only
the `date` of initially dateless items is touched, items that already had a
date are returned unchanged, and when no item lacks a date the input list is
returned at once under every fetch oracle (no fetch is consulted). -/
theorem C3_enrich_frame :
    ∀ (fetch : JVal → Option PyStr) (items : List PyDict),
    (tavily_reddit.datelessItems items).all
      (fun it => (dget? it ("url".data)).isSome) = true →
    isOk (tavily_reddit.enrich_dates fetch items) = true ∧
    (okItems (tavily_reddit.enrich_dates fetch items)).length = items.length ∧
    (∀ (k : ℕ) (key : PyStr), k < items.length → key ≠ "date".data →
      dget? ((okItems (tavily_reddit.enrich_dates fetch items)).getD k []) key =
        dget? (items.getD k []) key) ∧
    (∀ k : ℕ, k < items.length →
      truthy (dget (items.getD k []) ("date".data) .null) = true →
      (okItems (tavily_reddit.enrich_dates fetch items)).getD k [] =
        items.getD k []) ∧
    ((tavily_reddit.datelessItems items).isEmpty = true →
      ∀ g, tavily_reddit.enrich_dates g items = .ok items) := by
  intro fetch items hall
  by_cases hemp : (tavily_reddit.datelessItems items).isEmpty = true
  · have hE : ∀ g : JVal → Option PyStr,
        tavily_reddit.enrich_dates g items = .ok items := by
      intro g
      unfold tavily_reddit.enrich_dates
      rw [if_pos hemp]
    refine ⟨?_, ?_, ?_, ?_, fun _ g => hE g⟩
    · rw [hE fetch]; rfl
    · rw [hE fetch]; rfl
    · intro k key _ _
      rw [hE fetch]
      rfl
    · intro k _ _
      rw [hE fetch]
      rfl
  · have hE : tavily_reddit.enrich_dates fetch items =
        .ok (items.map (enrichOne fetch)) := by
      unfold tavily_reddit.enrich_dates
      rw [if_neg hemp, if_pos hall]
      rfl
    refine ⟨?_, ?_, ?_, ?_, fun habs _ => absurd habs hemp⟩
    · rw [hE]; rfl
    · rw [hE]
      simp [okItems]
    · intro k key hk hkey
      rw [hE]
      show dget? ((items.map (enrichOne fetch)).getD k []) key = _
      rw [getD_map_lt (enrichOne fetch) items k hk [] []]
      exact enrichOne_nondate fetch _ key hkey
    · intro k hk ht
      rw [hE]
      show (items.map (enrichOne fetch)).getD k [] = _
      rw [getD_map_lt (enrichOne fetch) items k hk [] []]
      unfold enrichOne
      rw [if_pos ht]

/-- Witness for C3 at a concrete two-item list and a fetch that recovers a
date. -/
theorem C3_frame_check :
    isOk (tavily_reddit.enrich_dates exFetchIso exEnrichItems) = true ∧
    (okItems (tavily_reddit.enrich_dates exFetchIso exEnrichItems)).length =
      exEnrichItems.length :=
  ⟨(C3_enrich_frame exFetchIso exEnrichItems rfl).1,
   (C3_enrich_frame exFetchIso exEnrichItems rfl).2.1⟩
/-- C4 counterexample: the claim reads the reference count as defaulting to 1
when a citation is absent from the text, which would give the first item of
`exPplxAbsentCitation` a zero bonus and relevance `round(0.90, 2) = 0.90`;
the code counts zero occurrences instead (the default 1 applies only when the
content is falsy), so the bonus is `min(0.1, -0.05) = -0.05` and the emitted
relevance is 0.85. -/
theorem C4_refcount_counterexample :
    (okItems (perplexity_search.normalize_results exPplxAbsentCitation)).map
      relevanceOf = [some (17 / 20), some (73 / 100)] ∧
    (17 / 20 : ℚ) ≠ 9 / 10 :=
  ⟨by decide!, by norm_num⟩

/-- C4 as amended: every emitted item's relevance equals
`round(0.55 + 0.35 * position_score + ref_bonus, 2)` with
`position_score = max(0, 1 - i/count)` and
`ref_bonus = min(0.1, (refCount(i+1) - 1) * 0.05)`, where `refCount(i+1)` is
the number of occurrences of the citation's marker in the content (1 only
when the content is falsy; a citation absent from non-empty content counts
0, making the bonus -0.05); on the section-8 two-citation example the
emitted relevances are 0.95 and 0.73. -/
theorem C4_relevance_formula :
    ((okItems (perplexity_search.normalize_results ex8resp)).map relevanceOf =
      [some (19 / 20), some (73 / 100)]) ∧
    ∀ (resp : PyDict) (out : List PyDict) (it : PyDict),
      perplexity_search.normalize_results resp = .ok out → it ∈ out →
      ∃ cs i, perplexity_search.contentStep resp = .ok cs ∧
        i < citationCount resp ∧
        relevanceOf it = some (perplexity_search.relevanceFormula
          (citationCount resp) i (perplexity_search.refCountOf cs (i + 1))) :=
  ⟨by decide!, fun resp out it h hm => pplx_mem_formula resp out it h hm⟩

/-- Witness for C4 at the section-8 example's first item. -/
theorem C4_formula_check :
    ∃ cs i, perplexity_search.contentStep ex8resp = .ok cs ∧
      i < citationCount ex8resp ∧
      relevanceOf ex8item = some (perplexity_search.relevanceFormula
        (citationCount ex8resp) i (perplexity_search.refCountOf cs (i + 1))) :=
  C4_relevance_formula.2 ex8resp
    (okItems (perplexity_search.normalize_results ex8resp)) ex8item rfl
    (getD_zero_mem _ _ rfl)

/-- C5 counterexample: the platform normalizer keeps a result whose host is
the denylisted reddit.com, so the claim's "absent from every normalizer's
output" fails there. -/
theorem C5_reddit_keeps_denylisted_host :
    (okItems (tavily_reddit.parse_reddit_response (fun _ => none)
      exRedditHosted)).map urlStrOf =
      [some ("https://reddit.com/r/abc/comments/x1/t".data)] ∧
    netlocOf? ("https://reddit.com/r/abc/comments/x1/t".data) =
      some ("reddit.com".data) ∧
    lowerStr ("reddit.com".data) ∈ perplexity_search.EXCLUDED_DOMAINS :=
  ⟨rfl, rfl, by decide⟩

/-- C5 as amended: for the two general-web normalizers, every emitted item
whose url parses with a netloc has a lowercased host outside the denylist;
the platform normalizer performs no denylist filtering (it keeps exactly the
urls containing the text reddit.com). -/
theorem C5_web_denylist :
    ∀ (resp : PyDict) (out : List PyDict) (it : PyDict),
    (tavily_search.normalize_results resp = .ok out ∨
     perplexity_search.normalize_results resp = .ok out) →
    it ∈ out → urlNotDenylisted it = true := by
  intro resp out it hrun hm
  rcases hrun with h | h
  · exact (tavily_mem_props resp out it h hm).2.2.2.2
  · exact (pplx_mem_props resp out it h hm).2.2.2.2.2

/-- Witness for C5 at a concrete Tavily response. -/
theorem C5_denylist_check : urlNotDenylisted exTavilyPlainItem = true :=
  C5_web_denylist exTavilyPlain
    (okItems (tavily_search.normalize_results exTavilyPlain))
    exTavilyPlainItem (Or.inl rfl) (getD_zero_mem _ _ rfl)

/-- C6 counterexample: the general-web normalizer validates no date shape —
`published_date = "not-a-date!!"` is emitted as the ten-character slice
`"not-a-date"`, which is neither null nor of year-month-day shape. -/
theorem C6_web_date_unvalidated :
    (okItems (tavily_search.normalize_results exTavilyBadDate)).map dateValOf =
      [some (.str ("not-a-date".data))] ∧
    isoShape ("not-a-date".data) = false :=
  ⟨rfl, rfl⟩

/-- C6 as amended: in the platform (Reddit) normalizer every truthy emitted
date is a string matching the strict year-month-day pattern (in particular
`published_date = "2024/13/40"` is nulled), provided the enrichment fetch
yields only such strings; the general-web normalizer emits the first-ten
slice of any sized truthy `published_date` unvalidated. -/
theorem C6_reddit_date_validated :
    ((okItems (tavily_reddit.parse_reddit_response (fun _ => none)
      exRedditBadDate)).map dateValOf = [some .null]) ∧
    ∀ (fetch : JVal → Option PyStr) (resp : PyDict) (out : List PyDict)
      (it : PyDict),
      tavily_reddit.parse_reddit_response fetch resp = .ok out →
      (∀ u d, fetch u = some d → isoShape d = true) →
      it ∈ out → dateIsoOrFalsy it = true :=
  ⟨rfl, fun fetch resp out it h hiso hm =>
    (reddit_mem_props fetch resp out it h hm).2.2.2.2.2.2 hiso⟩

/-- Witness for C6 at the bad-date Reddit response enriched by a well-shaped
fetch. -/
theorem C6_date_check : dateIsoOrFalsy exRedditBadDateItem = true :=
  C6_reddit_date_validated.2 exFetchIso exRedditBadDate
    (okItems (tavily_reddit.parse_reddit_response exFetchIso exRedditBadDate))
    exRedditBadDateItem rfl
    (fun u d h => by
      injection h with h1
      rw [← h1]
      rfl)
    (getD_zero_mem _ _ rfl)
/-- C7 counterexample: the general-web normalizer emits an item whose title
is the empty string when the result has no title but a non-empty snippet
(there is no domain or body-text fallback in that family), so the claim's
"non-empty title" fails. -/
theorem C7_empty_title :
    (okItems (tavily_search.normalize_results exTavilyNoTitle)).map
      titleStrOf = [some []] :=
  rfl

/-- C7 as amended: every item emitted by any of the three normalizers has a
truthy url; in the platform (Reddit) family the title is additionally a
non-empty string (falling back to truncated body text), while the
general-web and LLM-citation families can emit an empty title (the former
has no title fallback when the snippet is non-empty, the latter falls back
to the stored domain, which is empty for host-less urls). -/
theorem C7_url_and_title :
    ∀ (resp : PyDict) (fetch : JVal → Option PyStr) (out : List PyDict)
      (it : PyDict),
    (tavily_search.normalize_results resp = .ok out ∨
     perplexity_search.normalize_results resp = .ok out ∨
     tavily_reddit.parse_reddit_response fetch resp = .ok out) →
    it ∈ out →
    urlTruthy it = true ∧
    (tavily_reddit.parse_reddit_response fetch resp = .ok out →
      titleNonempty it = true) := by
  intro resp fetch out it hrun hm
  refine ⟨?_, fun hreddit =>
    (reddit_mem_props fetch resp out it hreddit hm).2.2.2.2.1⟩
  rcases hrun with h | h | h
  · exact (tavily_mem_props resp out it h hm).2.2.2.1
  · exact (pplx_mem_props resp out it h hm).2.2.2.2.1
  · exact (reddit_mem_props fetch resp out it h hm).2.2.2.1

/-- Witness for C7 at a concrete Reddit response. -/
theorem C7_url_title_check :
    urlTruthy exRedditHostedItem = true ∧
    titleNonempty exRedditHostedItem = true := by
  have h := C7_url_and_title exRedditHosted (fun _ => none)
    (okItems (tavily_reddit.parse_reddit_response (fun _ => none)
      exRedditHosted))
    exRedditHostedItem (Or.inr (Or.inr rfl)) (getD_zero_mem _ _ rfl)
  exact ⟨h.1, h.2 rfl⟩

/-- C8 counterexample: the claimed inclusive range 0.55 to 0.90 fails on
both sides — a single citation referenced three times is emitted with
relevance 1.00, and the eighth of eight citations, absent from non-empty
content, is emitted with relevance 0.54. -/
theorem C8_range_counterexample :
    (okItems (perplexity_search.normalize_results exPplxTripleRef)).map
      relevanceOf = [some 1] ∧
    ¬((1 : ℚ) ≤ 9 / 10) ∧
    ((okItems (perplexity_search.normalize_results exPplxEight)).map
      relevanceOf).getLast? = some (some (27 / 50)) ∧
    ¬((11 / 20 : ℚ) ≤ 27 / 50) :=
  ⟨by decide!, by norm_num, by decide!, by norm_num⟩

/-- C8 as amended: every item emitted by the LLM-citation normalizer has
relevance between 0.50 and 1.00 inclusive (1.00 for a first citation
referenced at least two extra times; values below 0.55 when a citation is
absent from non-empty content, whose reference count 0 turns the bonus into
-0.05). -/
theorem C8_relevance_range :
    ∀ (resp : PyDict) (out : List PyDict) (it : PyDict),
    perplexity_search.normalize_results resp = .ok out → it ∈ out →
    relevanceHalfToOne it = true := by
  intro resp out it h hm
  exact (pplx_mem_props resp out it h hm).2.1

/-- Witness for C8 at the section-8 example's first item. -/
theorem C8_range_check : relevanceHalfToOne ex8item = true :=
  C8_relevance_range ex8resp
    (okItems (perplexity_search.normalize_results ex8resp)) ex8item rfl
    (getD_zero_mem _ _ rfl)

/-- C9: the enrichment worker bound of line 101 equals
`min(5, number_of_dateless_items)`, so it never exceeds the number of items
needing work nor 5; under the executor model (a start only happens while
fewer than `max_workers` tasks run), every prefix of a valid run has at most
5 tasks in flight, regardless of batch size. -/
theorem C9_worker_pool_bound :
    ∀ (items : List PyDict) (es : List Bool),
    tavily_reddit.poolRunOk (tavily_reddit.max_workers items) 0 es = true →
    (∀ p q : List Bool, es = p ++ q →
      tavily_reddit.inflightAfter 0 p ≤ 5) ∧
    tavily_reddit.max_workers items ≤ tavily_reddit.datelessCount items ∧
    tavily_reddit.max_workers items ≤ 5 := by
  intro items es hrun
  refine ⟨?_, Nat.min_le_right 5 _, Nat.min_le_left 5 _⟩
  intro p q heq
  have hw : tavily_reddit.max_workers items ≤ 5 := Nat.min_le_left 5 _
  have := poolRunOk_inflight (tavily_reddit.max_workers items) es 0
    (Nat.zero_le _) hrun p q heq
  omega

/-- Witness for C9: seven dateless items give a worker bound of five, and a
valid nine-event run never has more than five tasks in flight. -/
theorem C9_pool_check :
    tavily_reddit.max_workers exSevenDateless = 5 ∧
    tavily_reddit.inflightAfter 0 exPoolEvents ≤ 5 :=
  ⟨rfl, (C9_worker_pool_bound exSevenDateless exPoolEvents (by decide)).1
    exPoolEvents [] (List.append_nil exPoolEvents).symm⟩

/-- C10 counterexample: a result whose url is the list `["reddit.com"]`
passes the `in` filter by element membership and is emitted with a
non-string url, so the claim's "url that is a non-empty string" fails. -/
theorem C10_nonstring_url :
    (okItems (tavily_reddit.parse_reddit_response (fun _ => none)
      exRedditListUrl)).map urlStrOf = [none] ∧
    (okItems (tavily_reddit.parse_reddit_response (fun _ => none)
      exRedditListUrl)).map urlValOf =
      [some (.arr [.str ("reddit.com".data)])] :=
  ⟨rfl, rfl⟩

/-- C10 as amended: every item emitted by the Reddit normalizer has a truthy
url that Python-contains the text reddit.com — as a substring when the url
is a string (then also non-empty), as an element or key for list and dict
urls; string urls lacking the substring are silently skipped, but the filter
is membership, not a string-type guarantee. -/
theorem C10_reddit_url_filter :
    ∀ (fetch : JVal → Option PyStr) (resp : PyDict) (out : List PyDict)
      (it : PyDict),
    tavily_reddit.parse_reddit_response fetch resp = .ok out → it ∈ out →
    urlHasRedditCom it = true := by
  intro fetch resp out it h hm
  exact (reddit_mem_props fetch resp out it h hm).2.2.2.2.2.1

/-- Witness for C10 at a concrete Reddit response. -/
theorem C10_url_check : urlHasRedditCom exRedditHostedItem = true :=
  C10_reddit_url_filter (fun _ => none) exRedditHosted
    (okItems (tavily_reddit.parse_reddit_response (fun _ => none)
      exRedditHosted))
    exRedditHostedItem rfl (getD_zero_mem _ _ rfl)
